import Mathlib

/-!
# CShell (`simple_shell.h`) — a shallow embedding in Lean 4

This file embeds the command resolution and execution pipeline of
`src/simple_shell.h` (tokenization, redirection extraction, custom → built-in →
external dispatch, spawning with redirected descriptors, and job tracking) and
proves, or refutes, the specification claims about it.

Modelling conventions:
* C strings that may be `NULL` are `Option String`; the token array written by
  `shell_execute_command` is a `List (Option String)` where `none` is a slot the
  code overwrote with `NULL` (and the terminator `tokens[token_count] = NULL` is
  the end of the list: reading it is `List.head? = none`).
* `strtok(command, " ")` splits on runs of the single character `' '` (spaces
  only — tabs are NOT delimiters) and never produces empty tokens.
* OS effects are oracles: `posix_spawnp` is a function `Option String → Option Int`
  (`some pid` on success, `none` on failure), `waitpid(pid, &st, WNOHANG) > 0`
  is a function `Int → Bool`.  `printf` output is not modelled.  `strdup` is
  assumed to succeed (no out-of-memory modelling).
* A custom command callback receives `&ctx->base` (the inner `ShellContext`,
  which does not contain the registry or the job table), so for the dispatch
  claims it is modelled as a pure function of `(argc, argv)` returning a status.
* Undefined behavior the code can actually reach (`strcmp(NULL, name)` when
  `argv[0]` is `NULL` and the registry is non-empty) is an explicit `none`
  result of the dispatch.
-/

namespace CShell

/-- Capacity of the job table (`#define MAX_JOBS 100`). -/
def MAX_JOBS : Nat := 100

/-- Capacity of the custom-command registry (`#define MAX_CUSTOM_COMMANDS 50`). -/
def MAX_CUSTOM_COMMANDS : Nat := 50

/-- The `ShellError` enum of `simple_shell.h`, same constructors in the same
order. -/
inductive ShellError where
  | SHELL_OK
  | SHELL_ERROR_NULL_POINTER
  | SHELL_ERROR_MEMORY_ALLOCATION
  | SHELL_ERROR_INVALID_INPUT
  | SHELL_ERROR_COMMAND_NOT_FOUND
  | SHELL_ERROR_EXECUTION_FAILED
  | SHELL_ERROR_SIGNAL_HANDLING_FAILED
  | SHELL_ERROR_HISTORY_FULL
  | SHELL_ERROR_ENV_VAR_NOT_FOUND
  | SHELL_ERROR_ENV_VAR_FULL
  | SHELL_ERROR_CUSTOM_COMMAND_FULL
  | SHELL_ERROR_JOB_CONTROL_FULL
  | SHELL_ERROR_REDIRECTION_FAILED
  | SHELL_ERROR_PIPELINE_FAILED
  | SHELL_ERROR_ALIAS_FULL
  | SHELL_ERROR_TAB_COMPLETION_FAILED
deriving DecidableEq, Repr

/-- A `Job` table entry: `{ pid_t pid; char *command; bool running; }`. -/
structure Job where
  pid : Int
  command : String
  running : Bool
deriving DecidableEq, Repr

/-- The type of a `CommandCallback`, modelled as a pure function of
`(argc, argv)` (the callback receives only `&ctx->base`, which holds neither
the registry nor the job table; its mutations of the base context are
irrelevant to dispatch). -/
def Callback : Type := Nat → List (Option String) → ShellError

/-- A `CustomCommand` registry entry: `{ char *name; CommandCallback callback; }`. -/
structure CustomCommand where
  name : String
  callback : Callback

/-- The dispatch-relevant state of an `ExtendedShellContext`: the
custom-command registry (`custom_commands` / `custom_command_count`), the job
table (`jobs` / `job_count`), and `base.last_error`.  The counts are the list
lengths.  History, environment variables, aliases, the prompt and the signal
mask play no part in the claims under study. -/
structure ShellState where
  customCommands : List CustomCommand
  jobs : List Job
  lastError : ShellError

/-- `strtok(command, " ")` loop of `shell_execute_command`: split the input
into maximal runs of non-space characters (the delimiter set is exactly
`{' '}`; no other whitespace is split on, and no empty token is produced). -/
def tokenize (s : String) : List String :=
  ((s.data.splitOn ' ').filter (fun cs => cs ≠ [])).map (fun cs => String.mk cs)

/-- Is a token one of the three redirection operators? -/
def isRedirOp (t : String) : Bool :=
  t = "<" || t = ">" || t = ">>"

/-- Is a token an output-redirection operator (`>` or `>>`)? -/
def isOutOp (t : String) : Bool :=
  t = ">" || t = ">>"

/-- The redirection variables of `shell_execute_command`:
`input_file`, `output_file`, `append_output` (initially `NULL`, `NULL`, `false`). -/
structure RedirState where
  inputFile : Option String
  outputFile : Option String
  appendOutput : Bool
deriving DecidableEq, Repr

/-- The redirection-scanning loop of `shell_execute_command`.  For each index
`i` in order: if `tokens[i]` is `"<"` then `input_file = tokens[i+1]` and
`tokens[i] = NULL`; `">"` does the same for `output_file`; `">>"` additionally
sets `append_output = true`.  Neither branch skips the following token, and no
branch resets `append_output` to `false`.  `tokens[i+1]` at the last index
reads the `NULL` terminator, which is `rest.head? = none` here.  Mutation only
ever hits the current index, so each read of `tokens[i]` and `tokens[i+1]`
sees the original token.  Returns the mutated token array (`none` = slot
overwritten with `NULL`) and the final redirection state. -/
def scanRedirects : List String → RedirState → List (Option String) × RedirState
  | [], st => ([], st)
  | t :: rest, st =>
    if t = "<" then
      let res := scanRedirects rest { st with inputFile := rest.head? }
      (none :: res.1, res.2)
    else if t = ">" then
      let res := scanRedirects rest { st with outputFile := rest.head? }
      (none :: res.1, res.2)
    else if t = ">>" then
      let res := scanRedirects rest { st with outputFile := rest.head?, appendOutput := true }
      (none :: res.1, res.2)
    else
      let res := scanRedirects rest st
      (some t :: res.1, res.2)

/-- Initial redirection state: `input_file = NULL`, `output_file = NULL`,
`append_output = false`. -/
def initRedir : RedirState := ⟨none, none, false⟩

/-- `argv[0]` of a token array: the first slot, or `NULL` when the array is
empty (then `tokens[0]` is the terminator the code wrote). -/
def arg0 (argv : List (Option String)) : Option String :=
  match argv with
  | [] => none
  | a :: _ => a

/-- The argument vector a spawned child actually sees: `argv` is a
`NULL`-terminated `char *` array, so everything from the first `NULL` slot on
(the first redirection operator position) is cut off. -/
def effectiveArgv : List (Option String) → List String
  | [] => []
  | none :: _ => []
  | some t :: rest => t :: effectiveArgv rest

/-- `shell_register_command` (null checks on `ctx`/`name`/`callback` are the
caller's contract and out of scope; `strdup` is assumed to succeed).  If the
registry is full, set `last_error` and return `SHELL_ERROR_CUSTOM_COMMAND_FULL`
without touching the entries; otherwise append the new entry. -/
def shell_register_command (st : ShellState) (name : String) (callback : Callback) :
    ShellError × ShellState :=
  if st.customCommands.length ≥ MAX_CUSTOM_COMMANDS then
    (.SHELL_ERROR_CUSTOM_COMMAND_FULL,
      { st with lastError := .SHELL_ERROR_CUSTOM_COMMAND_FULL })
  else
    (.SHELL_OK, { st with customCommands := st.customCommands ++ [⟨name, callback⟩] })

/-- `shell_add_job`.  The `command` argument is a `const char *` that may be
`NULL` (the caller `shell_execute_external` passes `argv[0]`): a `NULL`
command hits the null check and returns `SHELL_ERROR_NULL_POINTER`.  When the
table is full, set `last_error` and return `SHELL_ERROR_JOB_CONTROL_FULL`
without touching the entries; otherwise append `{pid, strdup(command), true}`. -/
def shell_add_job (st : ShellState) (pid : Int) (command : Option String) :
    ShellError × ShellState :=
  match command with
  | none => (.SHELL_ERROR_NULL_POINTER, st)
  | some cmd =>
    if st.jobs.length ≥ MAX_JOBS then
      (.SHELL_ERROR_JOB_CONTROL_FULL,
        { st with lastError := .SHELL_ERROR_JOB_CONTROL_FULL })
    else
      (.SHELL_OK, { st with jobs := st.jobs ++ [⟨pid, cmd, true⟩] })

/-- One entry's step of the `shell_update_jobs` loop: only an entry with
`running == true` is polled with `waitpid(pid, &status, WNOHANG)`; a positive
result flips `running` to `false` (and prints a notice, not modelled).  The
oracle `w pid` is `waitpid(pid, ..., WNOHANG) > 0`. -/
def updateJobStep (w : Int → Bool) (j : Job) : Job :=
  if j.running && w j.pid then { j with running := false } else j

/-- `shell_update_jobs`: iterate `updateJobStep` over every entry (each loop
iteration touches only `jobs[i]`).  Also returns, in iteration order, the pids
on which `waitpid` was actually called — exactly the entries still marked
running.  The function itself always returns `SHELL_OK`; job entries are the
interesting output. -/
def shell_update_jobs (w : Int → Bool) (jobs : List Job) : List Job × List Int :=
  (jobs.map (updateJobStep w), (jobs.filter (fun j => j.running)).map (fun j => j.pid))

/-- `shell_execute_custom` on the dispatch-relevant state.  The loop compares
`strcmp(argv[0], custom_commands[i].name)` for each registered entry in order
and, on the first match, tail-calls the callback.  If no entry matches (or the
registry is empty), `last_error` is set and `SHELL_ERROR_COMMAND_NOT_FOUND`
returned.  When `argv[0]` is `NULL` and at least one entry exists, the first
`strcmp` dereferences `NULL`: undefined behavior, modelled as `none`. -/
def shell_execute_custom (st : ShellState) (argc : Nat) (argv : List (Option String)) :
    Option (ShellError × ShellState) :=
  if st.customCommands.isEmpty then
    some (.SHELL_ERROR_COMMAND_NOT_FOUND,
      { st with lastError := .SHELL_ERROR_COMMAND_NOT_FOUND })
  else
    match arg0 argv with
    | none => none
    | some a0 =>
      match st.customCommands.find? (fun c => c.name = a0) with
      | some c => some (c.callback argc argv, st)
      | none =>
        some (.SHELL_ERROR_COMMAND_NOT_FOUND,
          { st with lastError := .SHELL_ERROR_COMMAND_NOT_FOUND })

/-- Result of `shell_execute_builtin`: the `exit` branch calls `exit(0)` and
never returns; every other branch returns a status. -/
inductive BuiltinResult where
  | exitProcess
  | status (e : ShellError)
deriving DecidableEq, Repr

/-- `shell_execute_builtin`.  A `NULL` command hits the null check.  `"exit"`
terminates the process.  `"history"` prints the history (not modelled) and
returns `SHELL_OK`.  `"jobs"` first runs `shell_update_jobs`, then prints the
table, and returns `SHELL_OK`.  Anything else sets `last_error` and returns
`SHELL_ERROR_COMMAND_NOT_FOUND`. -/
def shell_execute_builtin (w : Int → Bool) (st : ShellState) (command : Option String) :
    BuiltinResult × ShellState :=
  match command with
  | none => (.status .SHELL_ERROR_NULL_POINTER, st)
  | some c =>
    if c = "exit" then
      (.exitProcess, st)
    else if c = "history" then
      (.status .SHELL_OK, st)
    else if c = "jobs" then
      (.status .SHELL_OK, { st with jobs := (shell_update_jobs w st.jobs).1 })
    else
      (.status .SHELL_ERROR_COMMAND_NOT_FOUND,
        { st with lastError := .SHELL_ERROR_COMMAND_NOT_FOUND })

/-- The access-mode bits of an `open(2)` flag word. -/
inductive AccessMode where
  | readOnly
  | writeOnly
deriving DecidableEq, Repr

/-- An `open(2)` flag word as composed by `shell_execute_external`:
an access mode plus the `O_CREAT`, `O_TRUNC`, `O_APPEND` bits. -/
structure OpenFlags where
  access : AccessMode
  creat : Bool
  trunc : Bool
  append : Bool
deriving DecidableEq, Repr

/-- Flags of the input-redirection open: `O_RDONLY`. -/
def inputOpenFlags : OpenFlags :=
  { access := .readOnly, creat := false, trunc := false, append := false }

/-- Flags of the output-redirection open:
`O_WRONLY | O_CREAT | (append_output ? O_APPEND : O_TRUNC)`. -/
def outputOpenFlags (append_output : Bool) : OpenFlags :=
  { access := .writeOnly, creat := true,
    trunc := !append_output, append := append_output }

/-- A queued `posix_spawn_file_actions_addopen(&file_actions, fd, path, flags, mode)`. -/
structure FileAction where
  fd : Nat
  path : String
  flags : OpenFlags
  mode : Nat
deriving DecidableEq, Repr

/-- Everything `shell_execute_external` does: its return status, the resulting
state, the queued file actions, the `posix_spawnp` invocation (always made;
`spawnFile` is the `argv[0]` passed as the file argument, `spawnArgs` the
`NULL`-terminated argument vector the child sees), and the process identifiers
the function kills or waits on (the source contains no `kill` and no `wait`
call, so both lists are built empty). -/
structure ExternalOutcome where
  status : ShellError
  state : ShellState
  actions : List FileAction
  spawnFile : Option String
  spawnArgs : List String
  spawnedPid : Option Int
  killedPids : List Int
  reapedPids : List Int

/-- `shell_execute_external`.  Queues an `addopen` on descriptor 0 with
`O_RDONLY` when `input_file` is non-`NULL`, then an `addopen` on descriptor 1
with `O_WRONLY | O_CREAT | (append_output ? O_APPEND : O_TRUNC)` and mode
`0644` when `output_file` is non-`NULL` (no action otherwise — the child
inherits the parent's descriptor).  Then calls `posix_spawnp` (oracle `spawn`,
applied to the `argv[0]` file argument; `none` = non-zero status).  On spawn
failure it sets `last_error` and returns `SHELL_ERROR_EXECUTION_FAILED`.  On
success it calls `shell_add_job(ctx, pid, argv[0])` WITHOUT checking the
result, and returns `SHELL_OK`. -/
def shell_execute_external (spawn : Option String → Option Int) (st : ShellState)
    (argv : List (Option String)) (input_file output_file : Option String)
    (append_output : Bool) : ExternalOutcome :=
  let inActs : List FileAction :=
    match input_file with
    | some f => [⟨0, f, inputOpenFlags, 0⟩]
    | none => []
  let outActs : List FileAction :=
    match output_file with
    | some f => [⟨1, f, outputOpenFlags append_output, 0o644⟩]
    | none => []
  match spawn (arg0 argv) with
  | none =>
    { status := .SHELL_ERROR_EXECUTION_FAILED,
      state := { st with lastError := .SHELL_ERROR_EXECUTION_FAILED },
      actions := inActs ++ outActs,
      spawnFile := arg0 argv, spawnArgs := effectiveArgv argv,
      spawnedPid := none, killedPids := [], reapedPids := [] }
  | some pid =>
    { status := .SHELL_OK,
      state := (shell_add_job st pid (arg0 argv)).2,
      actions := inActs ++ outActs,
      spawnFile := arg0 argv, spawnArgs := effectiveArgv argv,
      spawnedPid := some pid, killedPids := [], reapedPids := [] }

/-- A trace of one `shell_execute_command` dispatch that did return: the
returned status, the resulting state, which stages were reached (the custom
stage always runs first), and the external stage's spawn data when it ran. -/
structure DispatchTrace where
  status : ShellError
  state : ShellState
  builtinReached : Bool
  externalReached : Bool
  spawnFile : Option String
  actions : List FileAction

/-- Overall result of `shell_execute_command`: the process may exit (the
`exit` built-in), the dispatch may hit undefined behavior
(`strcmp(NULL, name)` in the custom stage), or it returns with a trace. -/
inductive CommandResult where
  | exited (st : ShellState)
  | undefinedBehavior
  | done (t : DispatchTrace)

/-- `shell_execute_command`: tokenize with `strtok(command, " ")`, run the
redirection scan, then try `shell_execute_custom`; if its result `== SHELL_OK`
return `SHELL_OK`, otherwise try `shell_execute_builtin(ctx, tokens[0])`; if
that result `== SHELL_OK` return `SHELL_OK`, otherwise tail-call
`shell_execute_external(ctx, tokens, input_file, output_file, append_output)`.
Note the short-circuit tests compare against `SHELL_OK`, not against
`SHELL_ERROR_COMMAND_NOT_FOUND`. -/
def shell_execute_command (spawn : Option String → Option Int) (w : Int → Bool)
    (st : ShellState) (command : String) : CommandResult :=
  let tokens := tokenize command
  let scanned := scanRedirects tokens initRedir
  let slots := scanned.1
  let rd := scanned.2
  match shell_execute_custom st tokens.length slots with
  | none => .undefinedBehavior
  | some (rc, st1) =>
    if rc = .SHELL_OK then
      .done { status := .SHELL_OK, state := st1, builtinReached := false,
              externalReached := false, spawnFile := none, actions := [] }
    else
      match shell_execute_builtin w st1 (arg0 slots) with
      | (.exitProcess, st2) => .exited st2
      | (.status rb, st2) =>
        if rb = .SHELL_OK then
          .done { status := .SHELL_OK, state := st2, builtinReached := true,
                  externalReached := false, spawnFile := none, actions := [] }
        else
          let ext := shell_execute_external spawn st2 slots
            rd.inputFile rd.outputFile rd.appendOutput
          .done { status := ext.status, state := ext.state, builtinReached := true,
                  externalReached := true, spawnFile := ext.spawnFile,
                  actions := ext.actions }

/-- The slot following the LAST token satisfying `p` in a left-to-right scan:
`none` when no token satisfies `p`; `some x` when one does, where `x` is the
slot after its last occurrence (`x = none` when that occurrence is the final
token, i.e. the read hits the `NULL` terminator). -/
def lastOpTarget (p : String → Bool) : List String → Option (Option String)
  | [] => none
  | t :: rest =>
    match lastOpTarget p rest with
    | some r => some r
    | none => if p t then some rest.head? else none

/-- Did the dispatch reach the built-in stage?  (`exited` means the `exit`
built-in ran, so the stage was reached.) -/
def reachedBuiltin : CommandResult → Bool
  | .exited _ => true
  | .undefinedBehavior => false
  | .done t => t.builtinReached

/-- Did the dispatch reach the external stage (and hence call `posix_spawnp`)? -/
def reachedExternal : CommandResult → Bool
  | .exited _ => false
  | .undefinedBehavior => false
  | .done t => t.externalReached

/-- The status `shell_execute_command` returned, when it returned. -/
def statusOf : CommandResult → Option ShellError
  | .exited _ => none
  | .undefinedBehavior => none
  | .done t => some t.status

/-- The `argv[0]` handed to `posix_spawnp` as its file argument, when the
external stage ran (`some none` = the spawn was invoked with a `NULL` file). -/
def spawnFileOf : CommandResult → Option (Option String)
  | .done t => if t.externalReached then some t.spawnFile else none
  | _ => none

/-! Concrete fixtures for counterexamples and witnesses. -/

/-- A `posix_spawnp` oracle that always fails (non-zero return). -/
def noSpawn : Option String → Option Int := fun _ => none

/-- A `posix_spawnp` oracle that always succeeds with pid 7. -/
def spawnOk : Option String → Option Int := fun _ => some 7

/-- A `waitpid(..., WNOHANG)` oracle reporting no child has exited. -/
def noWait : Int → Bool := fun _ => false

/-- A `waitpid(..., WNOHANG)` oracle reporting every polled child has exited. -/
def waitAll : Int → Bool := fun _ => true

/-- A freshly initialized dispatch state: no custom commands, no jobs. -/
def emptyState : ShellState := ⟨[], [], .SHELL_OK⟩

/-- A callback that runs and reports its own failure (a status that is
neither `SHELL_OK` nor `SHELL_ERROR_COMMAND_NOT_FOUND`). -/
def echo2Fail : Callback := fun _ _ => .SHELL_ERROR_EXECUTION_FAILED

/-- A callback that runs and succeeds. -/
def echo2Ok : Callback := fun _ _ => .SHELL_OK

/-- A state with one registered custom command `"echo2"` whose callback fails. -/
def echo2FailState : ShellState := ⟨[⟨"echo2", echo2Fail⟩], [], .SHELL_OK⟩

/-- A state with one registered custom command `"echo2"` whose callback succeeds. -/
def echo2OkState : ShellState := ⟨[⟨"echo2", echo2Ok⟩], [], .SHELL_OK⟩

/-- A state whose job table is exactly at capacity. -/
def fullJobState : ShellState :=
  ⟨[], List.replicate MAX_JOBS ⟨1, "sleep", true⟩, .SHELL_OK⟩

/-- A state whose custom-command registry is exactly at capacity. -/
def fullRegState : ShellState :=
  ⟨List.replicate MAX_CUSTOM_COMMANDS ⟨"mycmd", echo2Ok⟩, [], .SHELL_OK⟩

section ScanLemmas

/-- The mutated token array: operator slots are overwritten with `NULL`,
every other token (redirection filenames included) stays in place. -/
theorem scanRedirects_fst (ts : List String) (st : RedirState) :
    (scanRedirects ts st).1 = ts.map (fun t => if isRedirOp t then none else some t) := by
  induction ts generalizing st with
  | nil => rfl
  | cons t rest ih =>
    by_cases h1 : t = "<"
    · simp [scanRedirects, h1, isRedirOp, ih]
    · by_cases h2 : t = ">"
      · simp [scanRedirects, h1, h2, isRedirOp, ih]
      · by_cases h3 : t = ">>"
        · simp [scanRedirects, h1, h2, h3, isRedirOp, ih]
        · simp [scanRedirects, h1, h2, h3, isRedirOp, ih]

/-- The final `input_file`: the slot after the last `"<"`, or the initial
value when no `"<"` occurs. -/
theorem scanRedirects_inputFile (ts : List String) (st : RedirState) :
    (scanRedirects ts st).2.inputFile
      = (lastOpTarget (fun t => t = "<") ts).getD st.inputFile := by
  induction ts generalizing st with
  | nil => rfl
  | cons t rest ih =>
    by_cases h1 : t = "<"
    · rw [show scanRedirects (t :: rest) st
          = (none :: (scanRedirects rest { st with inputFile := rest.head? }).1,
             (scanRedirects rest { st with inputFile := rest.head? }).2) by
        simp [scanRedirects, h1]]
      rw [ih]
      cases hlast : lastOpTarget (fun t => t = "<") rest with
      | some r => simp [lastOpTarget, hlast]
      | none => simp [lastOpTarget, hlast, h1]
    · have hscan : (scanRedirects (t :: rest) st).2.inputFile
          = (lastOpTarget (fun t => t = "<") rest).getD st.inputFile := by
        by_cases h2 : t = ">"
        · rw [show scanRedirects (t :: rest) st
              = (none :: (scanRedirects rest { st with outputFile := rest.head? }).1,
                 (scanRedirects rest { st with outputFile := rest.head? }).2) by
            simp [scanRedirects, h1, h2]]
          rw [ih]
        · by_cases h3 : t = ">>"
          · rw [show scanRedirects (t :: rest) st
                = (none :: (scanRedirects rest
                      { st with outputFile := rest.head?, appendOutput := true }).1,
                   (scanRedirects rest
                      { st with outputFile := rest.head?, appendOutput := true }).2) by
              simp [scanRedirects, h1, h2, h3]]
            rw [ih]
          · rw [show scanRedirects (t :: rest) st
                = (some t :: (scanRedirects rest st).1, (scanRedirects rest st).2) by
              simp [scanRedirects, h1, h2, h3]]
            rw [ih]
      rw [hscan]
      cases hlast : lastOpTarget (fun t => t = "<") rest with
      | some r => simp [lastOpTarget, hlast]
      | none => simp [lastOpTarget, hlast, h1]

/-- The final `output_file`: the slot after the last `">"`-or-`">>"`, or the
initial value when neither occurs. -/
theorem scanRedirects_outputFile (ts : List String) (st : RedirState) :
    (scanRedirects ts st).2.outputFile
      = (lastOpTarget (fun t => isOutOp t) ts).getD st.outputFile := by
  induction ts generalizing st with
  | nil => rfl
  | cons t rest ih =>
    have hstep : ∃ st' : RedirState,
        (scanRedirects (t :: rest) st).2 = (scanRedirects rest st').2
        ∧ st'.outputFile = (if isOutOp t then rest.head? else st.outputFile) := by
      by_cases h1 : t = "<"
      · exact ⟨{ st with inputFile := rest.head? }, by simp [scanRedirects, h1],
          by simp [isOutOp, h1]⟩
      · by_cases h2 : t = ">"
        · exact ⟨{ st with outputFile := rest.head? }, by simp [scanRedirects, h1, h2],
            by simp [isOutOp, h2]⟩
        · by_cases h3 : t = ">>"
          · exact ⟨{ st with outputFile := rest.head?, appendOutput := true },
              by simp [scanRedirects, h1, h2, h3], by simp [isOutOp, h3]⟩
          · exact ⟨st, by simp [scanRedirects, h1, h2, h3], by simp [isOutOp, h2, h3]⟩
    obtain ⟨st', hrec, hout⟩ := hstep
    rw [hrec, ih, hout]
    cases hlast : lastOpTarget (fun t => isOutOp t) rest with
    | some r => simp [lastOpTarget, hlast]
    | none =>
      by_cases hop : isOutOp t
      · simp [lastOpTarget, hlast, hop]
      · simp [lastOpTarget, hlast, hop]

/-- The final `append_output`: true exactly when it started true or some
`">>"` token occurs (no branch ever resets it to `false`). -/
theorem scanRedirects_append (ts : List String) (st : RedirState) :
    (scanRedirects ts st).2.appendOutput
      = (st.appendOutput || ts.any (fun t => t = ">>")) := by
  induction ts generalizing st with
  | nil => simp [scanRedirects]
  | cons t rest ih =>
    by_cases h1 : t = "<"
    · rw [show (scanRedirects (t :: rest) st).2
          = (scanRedirects rest { st with inputFile := rest.head? }).2 by
        simp [scanRedirects, h1]]
      rw [ih]
      simp [h1]
    · by_cases h2 : t = ">"
      · rw [show (scanRedirects (t :: rest) st).2
            = (scanRedirects rest { st with outputFile := rest.head? }).2 by
          simp [scanRedirects, h1, h2]]
        rw [ih]
        simp [h2]
      · by_cases h3 : t = ">>"
        · rw [show (scanRedirects (t :: rest) st).2
              = (scanRedirects rest
                  { st with outputFile := rest.head?, appendOutput := true }).2 by
            simp [scanRedirects, h1, h2, h3]]
          rw [ih]
          simp [h3]
        · rw [show (scanRedirects (t :: rest) st).2 = (scanRedirects rest st).2 by
            simp [scanRedirects, h1, h2, h3]]
          rw [ih]
          simp [h1, h2, h3]

/-- When the final token satisfies `p`, the last-occurrence slot is the `NULL`
terminator. -/
theorem lastOpTarget_getLast (p : String → Bool) (ts : List String) (op : String)
    (hlast : ts.getLast? = some op) (hp : p op = true) :
    lastOpTarget p ts = some none := by
  induction ts with
  | nil => simp at hlast
  | cons t rest ih =>
    cases rest with
    | nil =>
      simp only [List.getLast?_singleton, Option.some.injEq] at hlast
      subst hlast
      simp [lastOpTarget, hp]
    | cons u rest' =>
      have : (u :: rest').getLast? = some op := by
        simpa [List.getLast?_cons_cons] using hlast
      have hrec := ih this
      have hdef : lastOpTarget p (t :: u :: rest')
          = match lastOpTarget p (u :: rest') with
            | some r => some r
            | none => if p t = true then some ((u :: rest').head?) else none := rfl
      rw [hdef, hrec]

/-- `effectiveArgv` of a nulled-operators array is the prefix of the original
tokens before the first redirection operator. -/
theorem effectiveArgv_map (ts : List String) :
    effectiveArgv (ts.map (fun t => if isRedirOp t then none else some t))
      = ts.takeWhile (fun t => !isRedirOp t) := by
  induction ts with
  | nil => rfl
  | cons t rest ih =>
    cases hb : isRedirOp t with
    | true => simp [effectiveArgv, hb, List.takeWhile_cons]
    | false => simp [effectiveArgv, hb, List.takeWhile_cons, ih]

end ScanLemmas

/-! ## Claim theorems -/

/-- C2 (counterexample): on the token sequence `cat < in arg2` the claim
fails: the filename token `"in"` is NOT removed from the token array (only
the operator slot is overwritten with `NULL`), and the `NULL`-terminated
argument list the external strategy sees is `["cat"]`, not the
`["cat", "arg2"]` the claim requires (the later ordinary argument is dropped
along with everything after the first operator). -/
theorem c2_counterexample :
    (some "in") ∈ (scanRedirects ["cat", "<", "in", "arg2"] initRedir).1
    ∧ effectiveArgv (scanRedirects ["cat", "<", "in", "arg2"] initRedir).1 ≠ ["cat", "arg2"]
    ∧ effectiveArgv (scanRedirects ["cat", "<", "in", "arg2"] initRedir).1 = ["cat"] := by
  decide

/-- C2 (amended): the scan records, for each operator, the following slot as
the redirect path (last occurrence winning, the terminator giving `none`), but
it removes only the OPERATOR token (overwriting its slot with `NULL`); the
filename token stays in the array.  Because the argument array is
`NULL`-terminated, the argument list the external strategy's child sees is
the prefix of the tokens before the FIRST redirection operator — the filename
and every later token are cut off, not just the two redirection tokens. -/
theorem c2_redirection_extraction (ts : List String) :
    (scanRedirects ts initRedir).1
      = ts.map (fun t => if isRedirOp t then none else some t)
    ∧ effectiveArgv (scanRedirects ts initRedir).1
      = ts.takeWhile (fun t => !isRedirOp t)
    ∧ (scanRedirects ts initRedir).2.inputFile
      = (lastOpTarget (fun t => t = "<") ts).getD none
    ∧ (scanRedirects ts initRedir).2.outputFile
      = (lastOpTarget (fun t => isOutOp t) ts).getD none
    ∧ (scanRedirects ts initRedir).2.appendOutput = ts.any (fun t => t = ">>") := by
  refine ⟨scanRedirects_fst ts initRedir, ?_, ?_, ?_, ?_⟩
  · rw [scanRedirects_fst]
    exact effectiveArgv_map ts
  · exact scanRedirects_inputFile ts initRedir
  · exact scanRedirects_outputFile ts initRedir
  · simpa using scanRedirects_append ts initRedir

/-- C4: when the last token is a redirection operator, the read of the
following slot hits the `NULL` terminator (total, `Option`-returning in this
embedding: `List.head? [] = none`), no error is raised, and the corresponding
redirect path ends up unset (`none`): the trailing operator sets no redirect
path. -/
theorem c4_trailing_operator (ts : List String) (op : String)
    ( _hop : isRedirOp op = true) (hlast : ts.getLast? = some op) :
    (op = "<" → (scanRedirects ts initRedir).2.inputFile = none)
    ∧ (isOutOp op = true → (scanRedirects ts initRedir).2.outputFile = none) := by
  constructor
  · intro h
    rw [scanRedirects_inputFile, lastOpTarget_getLast _ ts op hlast (by simp [h])]
    rfl
  · intro h
    rw [scanRedirects_outputFile, lastOpTarget_getLast _ ts op hlast h]
    rfl

/-- C4 witness: applying the theorem to `cat >` and to `wc <`. -/
theorem c4_witness :
    (scanRedirects ["cat", ">"] initRedir).2.outputFile = none
    ∧ (scanRedirects ["wc", "<"] initRedir).2.inputFile = none :=
  ⟨(c4_trailing_operator ["cat", ">"] ">" (by decide) (by decide)).2 (by decide),
   (c4_trailing_operator ["wc", "<"] "<" (by decide) (by decide)).1 rfl⟩

/-- C10: the output path is the slot following the LAST `>` or `>>` in
left-to-right scan order (the terminator giving `none`), and the append flag
is true exactly when some `>>` token occurs — in particular once any `>>`
sets it, no later `>` resets it (monotonicity in the third conjunct). -/
theorem c10_last_output_wins (ts : List String) :
    (scanRedirects ts initRedir).2.outputFile
      = (lastOpTarget (fun t => isOutOp t) ts).getD none
    ∧ (scanRedirects ts initRedir).2.appendOutput = ts.any (fun t => t = ">>")
    ∧ (∀ st : RedirState, st.appendOutput = true →
        (scanRedirects ts st).2.appendOutput = true) := by
  refine ⟨scanRedirects_outputFile ts initRedir,
    by simpa using scanRedirects_append ts initRedir, ?_⟩
  intro st h
  rw [scanRedirects_append, h]
  simp

/-- C10 witness: `cmd >> a > b` redirects output to `b` with the append flag
still set, and a scan entered with the flag set keeps it set. -/
theorem c10_witness :
    (scanRedirects ["cmd", ">>", "a", ">", "b"] initRedir).2.outputFile = some "b"
    ∧ (scanRedirects ["cmd", ">>", "a", ">", "b"] initRedir).2.appendOutput = true
    ∧ (scanRedirects [">", "x"] ⟨none, none, true⟩).2.appendOutput = true :=
  ⟨(c10_last_output_wins ["cmd", ">>", "a", ">", "b"]).1.trans (by decide),
   (c10_last_output_wins ["cmd", ">>", "a", ">", "b"]).2.1.trans (by decide),
   (c10_last_output_wins [">", "x"]).2.2 ⟨none, none, true⟩ rfl⟩

/-- C5: the job table never exceeds `MAX_JOBS`: `shell_add_job` at capacity
returns `SHELL_ERROR_JOB_CONTROL_FULL` and leaves the job entries untouched
(only `last_error` changes — no eviction, no silent drop), and any
`shell_add_job` call preserves the capacity bound. -/
theorem c5_add_job_capacity (st : ShellState) (pid : Int) (cmd : String)
    (c : Option String) :
    (st.jobs.length ≥ MAX_JOBS →
      shell_add_job st pid (some cmd)
        = (.SHELL_ERROR_JOB_CONTROL_FULL,
           { st with lastError := .SHELL_ERROR_JOB_CONTROL_FULL }))
    ∧ (st.jobs.length ≤ MAX_JOBS →
        (shell_add_job st pid c).2.jobs.length ≤ MAX_JOBS) := by
  constructor
  · intro h
    simp [shell_add_job, h]
  · intro h
    cases c with
    | none => simpa [shell_add_job] using h
    | some cmd' =>
      by_cases hfull : st.jobs.length ≥ MAX_JOBS
      · simpa [shell_add_job, hfull] using h
      · have hlt : st.jobs.length < MAX_JOBS := lt_of_not_ge hfull
        simp only [shell_add_job, if_neg hfull]
        simpa using hlt

/-- C5 witness: adding to a table holding exactly `MAX_JOBS` entries. -/
theorem c5_witness :
    shell_add_job fullJobState 7 (some "ls")
      = (.SHELL_ERROR_JOB_CONTROL_FULL,
         { fullJobState with lastError := .SHELL_ERROR_JOB_CONTROL_FULL })
    ∧ (shell_add_job fullJobState 7 (some "ls")).2.jobs.length ≤ MAX_JOBS :=
  ⟨(c5_add_job_capacity fullJobState 7 "ls" (some "ls")).1 (by decide),
   (c5_add_job_capacity fullJobState 7 "ls" (some "ls")).2 (by decide)⟩

/-- C6: with the registry exactly at capacity, `shell_register_command`
returns `SHELL_ERROR_CUSTOM_COMMAND_FULL`, leaves every registered entry
(name and callback) unchanged, and lookup by name — the scan
`shell_execute_custom` performs — is unaffected, so each of the first
`MAX_CUSTOM_COMMANDS` commands stays invokable. -/
theorem c6_register_capacity (st : ShellState) (name : String) (cb : Callback)
    (h : st.customCommands.length = MAX_CUSTOM_COMMANDS) :
    shell_register_command st name cb
      = (.SHELL_ERROR_CUSTOM_COMMAND_FULL,
         { st with lastError := .SHELL_ERROR_CUSTOM_COMMAND_FULL })
    ∧ (shell_register_command st name cb).2.customCommands = st.customCommands
    ∧ ∀ a0 : String,
        (shell_register_command st name cb).2.customCommands.find?
            (fun c => c.name = a0)
          = st.customCommands.find? (fun c => c.name = a0) := by
  have hfull : st.customCommands.length ≥ MAX_CUSTOM_COMMANDS := h.ge
  refine ⟨?_, ?_, ?_⟩ <;> simp [shell_register_command, hfull]

/-- C6 witness: registering into a registry holding exactly
`MAX_CUSTOM_COMMANDS` entries. -/
theorem c6_witness :
    (shell_register_command fullRegState "extra" echo2Ok).1
      = .SHELL_ERROR_CUSTOM_COMMAND_FULL
    ∧ (shell_register_command fullRegState "extra" echo2Ok).2.customCommands
      = fullRegState.customCommands := by
  have h := c6_register_capacity fullRegState "extra" echo2Ok
    (by simp [fullRegState])
  exact ⟨by rw [h.1], h.2.1⟩

/-- C7: polling is idempotent on settled jobs: `shell_update_jobs` preserves
the number of entries, leaves every entry whose running flag is already false
untouched, calls `waitpid` exactly on the entries still marked running (so a
settled entry is never status-checked), is the identity (with no checks at
all) once every job is settled, and never turns a running flag back on. -/
theorem c7_poll_idempotent (w : Int → Bool) (jobs : List Job) :
    ((shell_update_jobs w jobs).1.length = jobs.length)
    ∧ (∀ (i : Nat) (j : Job), jobs[i]? = some j → j.running = false →
        (shell_update_jobs w jobs).1[i]? = some j)
    ∧ ((shell_update_jobs w jobs).2
        = (jobs.filter (fun j => j.running)).map (fun j => j.pid))
    ∧ ((∀ j ∈ jobs, j.running = false) → shell_update_jobs w jobs = (jobs, []))
    ∧ (∀ (i : Nat) (j : Job), (shell_update_jobs w jobs).1[i]? = some j →
        j.running = true → jobs[i]? = some j) := by
  refine ⟨by simp [shell_update_jobs], ?_, rfl, ?_, ?_⟩
  · intro i j hget hrun
    simp only [shell_update_jobs, List.getElem?_map, hget, Option.map_some]
    simp [updateJobStep, hrun]
  · intro hall
    have h1 : jobs.map (updateJobStep w) = jobs := by
      induction jobs with
      | nil => rfl
      | cons a t ih =>
        have ha : a.running = false := hall a (by simp)
        simp only [List.map_cons, List.cons.injEq]
        exact ⟨by simp [updateJobStep, ha],
          ih (fun b hb => hall b (by simp [hb]))⟩
    have h2 : jobs.filter (fun j => j.running) = [] := by
      rw [List.filter_eq_nil_iff]
      intro j hj
      simp [hall j hj]
    simp [shell_update_jobs, h1, h2]
  · intro i j hget hrun
    simp only [shell_update_jobs, List.getElem?_map] at hget
    cases hj : jobs[i]? with
    | none => simp [hj] at hget
    | some j0 =>
      rw [hj] at hget
      have hget : updateJobStep w j0 = j := by simpa using hget
      by_cases hb : j0.running && w j0.pid
      · exfalso
        rw [← hget] at hrun
        simp [updateJobStep, hb] at hrun
      · rw [← hget]
        simp [updateJobStep, hb]

/-- C7 witness: a settled job is returned untouched and, once all jobs are
settled, a poll is the identity with no `waitpid` calls at all. -/
theorem c7_witness :
    (shell_update_jobs waitAll [⟨5, "ls", false⟩]).1[0]? = some ⟨5, "ls", false⟩
    ∧ shell_update_jobs waitAll [⟨5, "ls", false⟩] = ([⟨5, "ls", false⟩], []) :=
  ⟨(c7_poll_idempotent waitAll [⟨5, "ls", false⟩]).2.1 0 ⟨5, "ls", false⟩ rfl rfl,
   (c7_poll_idempotent waitAll [⟨5, "ls", false⟩]).2.2.2.1 (by decide)⟩

/-- C8: a full job table is non-fatal to external execution: after a
successful `posix_spawnp`, `shell_execute_external` ignores the failing
`shell_add_job` result and still returns `SHELL_OK`, the job table is simply
left as it was (tracking is lost, nothing is evicted), and the function
performs no `kill` and no `wait` on the spawned process. -/
theorem c8_add_failure_nonfatal (spawn : Option String → Option Int)
    (st : ShellState) (argv : List (Option String))
    (input_file output_file : Option String) (append_output : Bool) (pid : Int)
    (hspawn : spawn (arg0 argv) = some pid)
    (hfull : st.jobs.length ≥ MAX_JOBS) :
    (shell_execute_external spawn st argv input_file output_file append_output).status
      = .SHELL_OK
    ∧ (shell_execute_external spawn st argv input_file output_file append_output).state.jobs
      = st.jobs
    ∧ (shell_execute_external spawn st argv input_file output_file append_output).killedPids
      = []
    ∧ (shell_execute_external spawn st argv input_file output_file append_output).reapedPids
      = [] := by
  have hstate : (shell_execute_external spawn st argv input_file output_file
      append_output).state.jobs = st.jobs := by
    simp only [shell_execute_external, hspawn]
    cases ha : arg0 argv with
    | none => simp [shell_add_job]
    | some c => simp [shell_add_job, hfull]
  refine ⟨?_, hstate, ?_, ?_⟩ <;> simp [shell_execute_external, hspawn]

/-- C8 witness: spawning `ls` with the job table at capacity. -/
theorem c8_witness :
    (shell_execute_external spawnOk fullJobState [some "ls"] none none false).status
      = .SHELL_OK
    ∧ (shell_execute_external spawnOk fullJobState [some "ls"] none none false).state.jobs
      = fullJobState.jobs :=
  have h := c8_add_failure_nonfatal spawnOk fullJobState [some "ls"] none none false 7
    rfl (by decide)
  ⟨h.1, h.2.1⟩

/-- C9: redirection file actions of `shell_execute_external`: a present input
path is opened on descriptor 0 read-only (no create, no truncate, no append);
a present output path is opened on descriptor 1 write-only with create, with
truncate exactly when the append flag is false and append exactly when it is
true, mode `0644`; an absent path contributes no action on its descriptor
(the child inherits the parent's). -/
theorem c9_redirection_flags (spawn : Option String → Option Int)
    (st : ShellState) (argv : List (Option String))
    (input_file output_file : Option String) (append_output : Bool) :
    (input_file = none →
      ∀ a ∈ (shell_execute_external spawn st argv input_file output_file append_output).actions,
        a.fd ≠ 0)
    ∧ (∀ f, input_file = some f →
        (⟨0, f, { access := .readOnly, creat := false, trunc := false, append := false }, 0⟩ : FileAction)
          ∈ (shell_execute_external spawn st argv input_file output_file append_output).actions)
    ∧ (output_file = none →
        ∀ a ∈ (shell_execute_external spawn st argv input_file output_file append_output).actions,
          a.fd ≠ 1)
    ∧ (∀ f, output_file = some f →
        (⟨1, f, { access := .writeOnly, creat := true, trunc := !append_output,
                  append := append_output }, 0o644⟩ : FileAction)
          ∈ (shell_execute_external spawn st argv input_file output_file append_output).actions) := by
  have hact : (shell_execute_external spawn st argv input_file output_file append_output).actions
      = (match input_file with
         | some f => [⟨0, f, inputOpenFlags, 0⟩]
         | none => [])
        ++ (match output_file with
            | some f => [⟨1, f, outputOpenFlags append_output, 0o644⟩]
            | none => []) := by
    cases hs : spawn (arg0 argv) <;> simp [shell_execute_external, hs]
  refine ⟨?_, ?_, ?_, ?_⟩
  · intro hin a hmem
    rw [hact, hin] at hmem
    cases output_file with
    | none => simp at hmem
    | some f =>
      simp only [List.nil_append, List.mem_singleton] at hmem
      simp [hmem]
  · intro f hin
    rw [hact, hin]
    simp [inputOpenFlags]
  · intro hout a hmem
    rw [hact, hout] at hmem
    cases input_file with
    | none => simp at hmem
    | some f =>
      simp only [List.append_nil, List.mem_singleton] at hmem
      simp [hmem]
  · intro f hout
    rw [hact, hout]
    simp [outputOpenFlags]

/-- C9 witness: `cat < in.txt >> out.txt` queues a read-only open of `in.txt`
on descriptor 0 and a write-only create-append open of `out.txt` on
descriptor 1; with no redirection, no action touches descriptor 0. -/
theorem c9_witness :
    (⟨0, "in.txt", { access := .readOnly, creat := false, trunc := false,
                     append := false }, 0⟩ : FileAction)
      ∈ (shell_execute_external spawnOk emptyState [some "cat"]
          (some "in.txt") (some "out.txt") true).actions
    ∧ (⟨1, "out.txt", { access := .writeOnly, creat := true, trunc := false,
                        append := true }, 0o644⟩ : FileAction)
      ∈ (shell_execute_external spawnOk emptyState [some "cat"]
          (some "in.txt") (some "out.txt") true).actions
    ∧ ∀ a ∈ (shell_execute_external spawnOk emptyState [some "ls"]
          none none false).actions, a.fd ≠ 0 :=
  have h := c9_redirection_flags spawnOk emptyState [some "cat"]
    (some "in.txt") (some "out.txt") true
  have h2 := c9_redirection_flags spawnOk emptyState [some "ls"] none none false
  ⟨h.2.1 "in.txt" rfl, h.2.2.2 "out.txt" rfl, h2.1 rfl⟩

/-- C1 (counterexample): register `"echo2"` with a callback returning
`SHELL_ERROR_EXECUTION_FAILED` (a status that is neither `SHELL_OK` nor
`SHELL_ERROR_COMMAND_NOT_FOUND`, i.e. the strategy claims the command) and
invoke `echo2 a b`: dispatch does NOT stop at the custom stage — it goes on
to the built-in stage and then to the external stage, whose spawn result it
returns.  The claim that a matched custom command short-circuits regardless
of its callback's status is false. -/
theorem c1_counterexample :
    reachedBuiltin (shell_execute_command noSpawn noWait echo2FailState "echo2 a b") = true
    ∧ reachedExternal (shell_execute_command noSpawn noWait echo2FailState "echo2 a b") = true
    ∧ statusOf (shell_execute_command noSpawn noWait echo2FailState "echo2 a b")
      = some .SHELL_ERROR_EXECUTION_FAILED :=
  ⟨rfl, rfl, rfl⟩

/-- C1 (amended): `shell_execute_command` tries custom, then built-in, then
external, but each short-circuit test compares against `SHELL_OK` only: the
dispatch stops at the custom stage exactly when that stage returns
`SHELL_OK`; any other custom result — including one from a matched callback
that ran and failed — falls through to the built-in stage. -/
theorem c1_short_circuit_only_on_ok (spawn : Option String → Option Int)
    (w : Int → Bool) (st : ShellState) (cmd : String) :
    (∀ st1 : ShellState,
      shell_execute_custom st (tokenize cmd).length
          (scanRedirects (tokenize cmd) initRedir).1 = some (.SHELL_OK, st1) →
      shell_execute_command spawn w st cmd
        = .done { status := .SHELL_OK, state := st1, builtinReached := false,
                  externalReached := false, spawnFile := none, actions := [] })
    ∧ (∀ (rc : ShellError) (st1 : ShellState),
        shell_execute_custom st (tokenize cmd).length
            (scanRedirects (tokenize cmd) initRedir).1 = some (rc, st1) →
        rc ≠ .SHELL_OK →
        reachedBuiltin (shell_execute_command spawn w st cmd) = true) := by
  constructor
  · intro st1 h
    simp only [shell_execute_command]
    rw [h]
    rfl
  · intro rc st1 h hne
    simp only [shell_execute_command]
    rw [h]
    simp only [if_neg hne]
    rcases hb : shell_execute_builtin w st1
        (arg0 (scanRedirects (tokenize cmd) initRedir).1) with ⟨br, st2⟩
    cases br with
    | exitProcess => rfl
    | status rb =>
      by_cases hrb : rb = .SHELL_OK
      · simp [hrb, reachedBuiltin]
      · simp [hrb, reachedBuiltin]

/-- C1 witness: the same registration with a callback returning `SHELL_OK`
does short-circuit before the built-in and external stages. -/
theorem c1_witness :
    shell_execute_command noSpawn noWait echo2OkState "echo2 a b"
      = .done { status := .SHELL_OK, state := echo2OkState, builtinReached := false,
                externalReached := false, spawnFile := none, actions := [] } :=
  (c1_short_circuit_only_on_ok noSpawn noWait echo2OkState "echo2 a b").1
    echo2OkState rfl

/-- C3 (code divergence): a spaces-only line does tokenize to the empty
sequence, but dispatch does NOT stop with command-not-found: with an empty
registry the custom stage reports not-found, the built-in stage hits its
null check (`tokens[0]` is the `NULL` terminator), and the dispatch falls
through into `shell_execute_external`, which invokes `posix_spawnp` with a
`NULL` file argument and returns `SHELL_ERROR_EXECUTION_FAILED` under a
failing-spawn oracle.  Moreover `strtok(line, " ")` splits on spaces only,
so a tab-only line — whitespace in the claim's sense — tokenizes to a
NON-empty sequence. -/
theorem c3_whitespace_reaches_spawn :
    tokenize "   " = []
    ∧ reachedExternal (shell_execute_command noSpawn noWait emptyState "   ") = true
    ∧ spawnFileOf (shell_execute_command noSpawn noWait emptyState "   ") = some none
    ∧ statusOf (shell_execute_command noSpawn noWait emptyState "   ")
      = some .SHELL_ERROR_EXECUTION_FAILED
    ∧ tokenize "\t" = ["\t"] :=
  ⟨rfl, rfl, rfl, rfl, rfl⟩

end CShell
